import Mathlib

/-
Verification of the multi-round agentic control loop of the myagent
repository: a shallow embedding of core/agent.py (ManusAgent),
core/expert_agent.py (ExpertAgent.execute_async) and core/multi_agent.py
(MultiAgentOrchestrator), with the LLM, the JSON parser and the tools
abstracted as oracle functions supplied through an environment record.
-/

namespace OpenManus

/-- Whether the first character list is a prefix of the second. -/
def isPrefixChars : List Char → List Char → Bool
  | [], _ => true
  | _ :: _, [] => false
  | a :: as, b :: bs => a == b && isPrefixChars as bs

/-- Substring containment over character lists (structural recursion, so
that proofs can evaluate it). -/
def containsChars : List Char → List Char → Bool
  | [], pat => pat.isEmpty
  | h :: t, pat => isPrefixChars pat (h :: t) || containsChars t pat

/-- Substring containment, modelling the Python `pat in s` operator. -/
def containsSubstr (s pat : String) : Bool :=
  containsChars s.data pat.data

/-- `any(kw in s for kw in pats)`. -/
def containsAny (s : String) (pats : List String) : Bool :=
  pats.any (fun p => containsSubstr s p)

/-- Python `str.lower()` (character-wise, structurally recursive). -/
def strToLower (s : String) : String :=
  ⟨s.data.map Char.toLower⟩

/-- Python `str.strip()` (leading and trailing whitespace removed,
structurally recursive). -/
def strTrim (s : String) : String :=
  ⟨((s.data.dropWhile Char.isWhitespace).reverse.dropWhile Char.isWhitespace).reverse⟩

/-- Python slicing `s[:n]`: the first `n` characters. -/
def strTake (s : String) (n : Nat) : String :=
  ⟨s.data.take n⟩

/-- The view of a JSON object that the agent code reads from a tool
result-string: presence/value of the "status" key, and the "message" and
"details.suggestions" fields read with `.get(..., "")` defaults. -/
structure Jobj where
  status? : Option String
  message? : Option String
  suggestions? : Option String
deriving DecidableEq

/-- Normalized outcome of one tool invocation (ManusAgent._parse_tool_result
plus the `.get` defaults its consumers apply). -/
structure Outcome where
  status : String
  message : String
  suggestions : String
deriving DecidableEq

/-- ManusAgent._parse_tool_result: `json.loads` is modelled by the oracle
`jsonParse` (`none` covers both a parse failure and a non-dict value); when
the parse succeeds and the dict has a "status" key the dict is returned,
otherwise the synthetic outcome with status "unknown" and the raw string as
message. -/
def parseToolResult (jsonParse : String → Option Jobj) (out : String) : Outcome :=
  match jsonParse out with
  | some j =>
      match j.status? with
      | some s =>
          { status := s, message := j.message?.getD "", suggestions := j.suggestions?.getD "" }
      | none => { status := "unknown", message := out, suggestions := "" }
  | none => { status := "unknown", message := out, suggestions := "" }

/-- ManusAgent._is_tool_successful. -/
def isToolSuccessful (o : Outcome) : Bool :=
  o.status = "success"

/-- ManusAgent._extract_image_urls: image file extensions. -/
def imageExtensions : List String :=
  [".jpg", ".jpeg", ".png", ".gif", ".webp", ".bmp", ".svg"]

/-- ManusAgent._extract_image_urls: image hosting domains. -/
def imageHostDomains : List String :=
  ["imgur.com", "flickr.com", "unsplash.com", "pixabay.com", "pexels.com", "picsum.photos"]

/-- One URL is image-like (by extension or known image-hosting domain). -/
def isImageUrl (url : String) : Bool :=
  containsAny (strToLower url) imageExtensions || containsAny (strToLower url) imageHostDomains

/-- ManusAgent._extract_image_urls. -/
def extractImageUrls (urls : List String) : List String :=
  urls.filter isImageUrl

/-- Python `set.add` on the list model of a set (membership is all that the
code observes, insertion order is kept for determinism). -/
def insertSet (l : List String) (x : String) : List String :=
  if x ∈ l then l else l ++ [x]

/-- One planned action (PlanStep of the spec): `{"tool": ..., "input": ...}`. -/
structure PlanStep where
  tool : String
  input : String
deriving DecidableEq

/-- One persisted record of an executed step (ToolLogEntry). -/
structure LogEntry where
  step : Nat
  tool : String
  input : String
  output : String
deriving DecidableEq

/-- The parsed planning decision, with the `.get` defaults the loop applies:
`need_tool` defaults to false, `plan` to `[]`, `final_answer` and `thoughts`
to `""`.  ManusAgent.plan / ExpertAgent.plan always return such a dict
(their own JSON-parse failures fall back to a deterministic default plan),
so the loop sees an arbitrary value of this shape, supplied per round by the
environment oracle. -/
structure PlanResp where
  needTool : Bool
  plan : List PlanStep
  finalAnswer : String
  thoughts : String

/-- Environment of one ManusAgent.execute run: the JSON parse oracle, the
URL-extraction helper (_extract_urls_from_search_results, a regex/JSON
scanner abstracted as a function of the raw search output), the registry
membership test, the tool-call oracle (indexed by a call counter so that
stateful tools are representable; `Except.error` models a raised
exception), the per-round planning response, and the parsed final-answer
synthesis response (`none` = the synthesis LLM output did not parse). -/
structure Env where
  jsonParse : String → Option Jobj
  extractUrls : String → List String
  hasTool : String → Bool
  call : Nat → String → String → Except String String
  planResp : Nat → PlanResp
  synth : List LogEntry → Option (String × String)

/-- `f'url="{u}"'`: the keyword-argument syntax the loop passes to the
download/screenshot tools. -/
def urlArg (u : String) : String :=
  "url=\"" ++ u ++ "\""

/-- Mutable state of one dispatch round of ManusAgent.execute. -/
structure RoundSt where
  curLogs : List LogEntry
  toolsExecuted : List String
  roundSuccess : Bool
  extracted : List String
  tried : List String
  failed : List String
  tick : Nat

/-- The `web_search` branch of the dispatch loop: call, extract URLs from a
successful result (filtering out already-tried ones), log, record failure. -/
def runSearchStep (env : Env) (base : Nat) (st : RoundSt) (s : PlanStep) : RoundSt :=
  match env.call st.tick s.tool s.input with
  | Except.error e =>
      { st with tick := st.tick + 1,
                curLogs := st.curLogs ++ [⟨base + 1, s.tool, s.input, "[Exception] " ++ e⟩],
                roundSuccess := false,
                failed := insertSet st.failed s.tool }
  | Except.ok out =>
      let parsed := parseToolResult env.jsonParse out
      let st1 :=
        if isToolSuccessful parsed then
          let newUrls := (env.extractUrls out).filter (fun u => ! decide (u ∈ st.tried))
          { st with tick := st.tick + 1, extracted := st.extracted ++ newUrls }
        else { st with tick := st.tick + 1 }
      let st2 := { st1 with curLogs := st1.curLogs ++ [⟨base + 1, s.tool, s.input, out⟩] }
      if isToolSuccessful parsed then st2
      else { st2 with roundSuccess := false, failed := insertSet st2.failed s.tool }

/-- The inner `for img_url in image_urls[:3]` loop of the `web_download`
branch: mark each candidate tried, attempt the download, stop at the first
success; an exception is logged and the loop continues. -/
def downloadAttempts (env : Env) (base : Nat) :
    List String → RoundSt → Bool → RoundSt × Bool
  | [], st, success => (st, success)
  | u :: rest, st, success =>
      let st0 := { st with tried := insertSet st.tried u }
      match env.call st0.tick "web_download" (urlArg u) with
      | Except.ok out =>
          let st1 :=
            { st0 with
              tick := st0.tick + 1,
              curLogs := st0.curLogs ++ ([⟨base + 1, "web_download", urlArg u, out⟩] : List LogEntry) }
          if isToolSuccessful (parseToolResult env.jsonParse out) then
            ({ st1 with roundSuccess := true }, true)
          else
            downloadAttempts env base rest
              { st1 with failed := insertSet st1.failed "web_download" } success
      | Except.error e =>
          let st1 :=
            { st0 with
              tick := st0.tick + 1,
              curLogs := st0.curLogs ++
                [⟨base + 1, "web_download", urlArg u, "[Exception] 下载图片失败: " ++ e⟩] }
          downloadAttempts env base rest st1 success

/-- The `web_download` branch: try up to three untried image-like URLs; with
no candidate, log an informational failure and fall back to a
`web_screenshot` substitution on the first extracted URL (no tried-URL
check there, exactly as in the source). -/
def runDownloadStep (env : Env) (base : Nat) (st : RoundSt) (s : PlanStep) : RoundSt :=
  let imageUrls := (extractImageUrls st.extracted).filter (fun u => ! decide (u ∈ st.tried))
  if imageUrls.isEmpty then
    let st1 := { st with
      curLogs := st.curLogs ++
        [⟨base + 1, s.tool, s.input, "[Info] 没有找到可用的图片URL，请先执行web_search获取图片链接"⟩],
      roundSuccess := false,
      failed := insertSet st.failed s.tool }
    if ! decide ("web_screenshot" ∈ st1.failed) && ! st1.extracted.isEmpty then
      if env.hasTool "web_screenshot" then
        let u := st1.extracted.headD ""
        match env.call st1.tick "web_screenshot" (urlArg u) with
        | Except.ok out =>
            let st2 :=
              { st1 with
                tick := st1.tick + 1,
                curLogs := st1.curLogs ++ [⟨base + 2, "web_screenshot", urlArg u, out⟩],
                toolsExecuted := st1.toolsExecuted ++ ["web_screenshot"] }
            if isToolSuccessful (parseToolResult env.jsonParse out) then
              { st2 with roundSuccess := true, failed := st2.failed.erase s.tool }
            else st2
        | Except.error _e => { st1 with tick := st1.tick + 1 }
      else st1
    else st1
  else
    let r := downloadAttempts env base (imageUrls.take 3) st false
    if ¬ r.2 ∧ ¬ r.1.roundSuccess then { r.1 with roundSuccess := false } else r.1

/-- The `web_screenshot` branch (reached when `extracted_urls` is
non-empty): pick the first untried non-image URL, mark it tried, attempt the
screenshot; on failure fall back to a `web_download` substitution on the
same URL (which the branch has just added to `tried_urls`). -/
def runScreenshotStep (env : Env) (base : Nat) (st : RoundSt) (s : PlanStep) : RoundSt :=
  let imageUrls := extractImageUrls st.extracted
  let webpageUrls :=
    (st.extracted.filter (fun u => ! decide (u ∈ imageUrls))).filter
      (fun u => ! decide (u ∈ st.tried))
  if webpageUrls.isEmpty then
    { st with
      curLogs := st.curLogs ++
        [⟨base + 1, s.tool, s.input, "[Info] 没有找到可用的网页URL，请先执行web_search获取网页链接"⟩],
      roundSuccess := false,
      failed := insertSet st.failed s.tool }
  else
    let u := webpageUrls.headD ""
    let st1 := { st with tried := insertSet st.tried u }
    match env.call st1.tick "web_screenshot" (urlArg u) with
    | Except.ok out =>
        let st2 :=
          { st1 with
            tick := st1.tick + 1,
            curLogs := st1.curLogs ++ ([⟨base + 1, s.tool, urlArg u, out⟩] : List LogEntry) }
        if isToolSuccessful (parseToolResult env.jsonParse out) then
          { st2 with roundSuccess := true }
        else
          let st3 := { st2 with roundSuccess := false, failed := insertSet st2.failed s.tool }
          if ! decide ("web_download" ∈ st3.failed) && env.hasTool "web_download" then
            match env.call st3.tick "web_download" (urlArg u) with
            | Except.ok dout =>
                let st4 :=
                  { st3 with
                    tick := st3.tick + 1,
                    curLogs := st3.curLogs ++ [⟨base + 2, "web_download", urlArg u, dout⟩],
                    toolsExecuted := st3.toolsExecuted ++ ["web_download"] }
                if isToolSuccessful (parseToolResult env.jsonParse dout) then
                  { st4 with roundSuccess := true, failed := st4.failed.erase s.tool }
                else st4
            | Except.error _e => { st3 with tick := st3.tick + 1 }
          else st3
    | Except.error e =>
        { st1 with
          tick := st1.tick + 1,
          curLogs := st1.curLogs ++ [⟨base + 1, s.tool, urlArg u, "[Exception] 截图失败: " ++ e⟩],
          roundSuccess := false,
          failed := insertSet st1.failed s.tool }

/-- The default branch for every other tool: call, log, record success or
failure (an exception is logged as a failed entry). -/
def runGenericStep (env : Env) (base : Nat) (st : RoundSt) (s : PlanStep) : RoundSt :=
  match env.call st.tick s.tool s.input with
  | Except.ok out =>
      let st1 :=
        { st with
          tick := st.tick + 1,
          curLogs := st.curLogs ++ ([⟨base + 1, s.tool, s.input, out⟩] : List LogEntry) }
      if isToolSuccessful (parseToolResult env.jsonParse out) then
        { st1 with roundSuccess := true }
      else
        { st1 with roundSuccess := false, failed := insertSet st1.failed s.tool }
  | Except.error e =>
      { st with
        tick := st.tick + 1,
        curLogs := st.curLogs ++ [⟨base + 1, s.tool, s.input, "[Exception] " ++ e⟩],
        roundSuccess := false,
        failed := insertSet st.failed s.tool }

/-- One step of the dispatch loop of ManusAgent.execute: record the tool in
`tools_executed` (before the registry lookup, exactly as in the source),
then dispatch to the branch for the tool.  `base` is `len(tool_logs)` at
the start of the round (the global log is only extended after the round). -/
def runStep (env : Env) (base : Nat) (st : RoundSt) (s : PlanStep) : RoundSt :=
  let st0 := { st with toolsExecuted := st.toolsExecuted ++ [s.tool] }
  if ! env.hasTool s.tool then
    { st0 with
      curLogs := st0.curLogs ++
        [⟨base + 1, s.tool, s.input, "[Error] tool '" ++ s.tool ++ "' not found"⟩],
      roundSuccess := false }
  else if s.tool = "web_search" then runSearchStep env base st0 s
  else if s.tool = "web_download" then runDownloadStep env base st0 s
  else if s.tool = "web_screenshot" && ! st0.extracted.isEmpty then
    runScreenshotStep env base st0 s
  else runGenericStep env base st0 s

/-- `for i, step in enumerate(current_plan)`. -/
def runRound (env : Env) (base : Nat) (steps : List PlanStep) (st : RoundSt) : RoundSt :=
  steps.foldl (runStep env base) st

/-- Keywords of ManusAgent._is_task_completed for imagery requests. -/
def imageTaskKeywords : List String := ["图片", "image", "照片", "picture"]

/-- Keywords of ManusAgent._is_task_completed for search requests. -/
def searchTaskKeywords : List String := ["搜索", "search", "查找", "find"]

/-- Whether one log entry parses as a successful outcome. -/
def logOk (env : Env) (e : LogEntry) : Bool :=
  isToolSuccessful (parseToolResult env.jsonParse e.output)

/-- ManusAgent._is_task_completed: each keyword block only returns `True`
from inside; control always falls through to the default check granting
completion for any successful tool call. -/
def isTaskCompleted (env : Env) (userInput : String) (logs : List LogEntry) : Bool :=
  let lo := strToLower userInput
  if containsAny lo imageTaskKeywords &&
      logs.any (fun e => (e.tool == "web_download" || e.tool == "web_screenshot") && logOk env e) then
    true
  else if containsAny lo searchTaskKeywords &&
      logs.any (fun e => e.tool == "web_search" && logOk env e) then
    true
  else
    logs.any (logOk env)

/-- Per-query state of ManusAgent.execute threaded across rounds;
`roundsRun` records the final value of `round_num`. -/
structure ExecSt where
  toolLogs : List LogEntry
  llmThoughts : List String
  plans : List PlanStep
  finalAnswer : String
  finalThoughts : String
  extracted : List String
  tried : List String
  failed : List String
  tick : Nat
  roundsRun : Nat

/-- `f"第{round_num}轮思考: {current_thought}"`. -/
def thoughtLine (r : Nat) (t : String) : String :=
  "第" ++ toString r ++ "轮思考: " ++ t

/-- Fold one finished round back into the per-query state
(`tool_logs.extend(current_tool_logs)` plus the shared mutable sets). -/
def afterRound (st : ExecSt) (r : RoundSt) : ExecSt :=
  { st with
    toolLogs := st.toolLogs ++ r.curLogs, extracted := r.extracted,
    tried := r.tried, failed := r.failed, tick := r.tick }

/-- Initial round state from the per-query state (`current_tool_logs = []`,
`tools_executed = set()`, `round_success = True`). -/
def roundInit (st : ExecSt) : RoundSt :=
  { curLogs := [], toolsExecuted := [], roundSuccess := true,
    extracted := st.extracted, tried := st.tried, failed := st.failed, tick := st.tick }

/-- The `while round_num < max_rounds` loop of ManusAgent.execute, with the
remaining rounds as structural fuel and `r` the current `round_num`:
plan, stop on a direct answer, dispatch the plan, then the two early-exit
checks (`if not tools_executed: break` and
`if round_success and self._is_task_completed(...): break`). -/
def execLoop (env : Env) (userInput : String) : Nat → Nat → ExecSt → ExecSt
  | 0, _, st => st
  | fuel + 1, r, st =>
      let rn := r + 1
      let p := env.planResp rn
      let st1 :=
        { st with
          llmThoughts := st.llmThoughts ++ [thoughtLine rn p.thoughts],
          roundsRun := rn }
      if ! p.needTool then
        { st1 with finalAnswer := p.finalAnswer, finalThoughts := p.thoughts }
      else
        let st2 := { st1 with plans := st1.plans ++ p.plan }
        let rs := runRound env st2.toolLogs.length p.plan (roundInit st2)
        let st3 := afterRound st2 rs
        if rs.toolsExecuted.isEmpty then st3
        else if rs.roundSuccess && isTaskCompleted env userInput st3.toolLogs then st3
        else execLoop env userInput fuel rn st3

/-- One line of the structured digest the final-answer synthesis prompt is
built from: status, message truncated to 300 characters, suggestions when
non-empty. -/
def outcomeLine (env : Env) (i : Nat) (e : LogEntry) : String :=
  let parsed := parseToolResult env.jsonParse e.output
  let line := "第" ++ toString i ++ "步 - " ++ e.tool ++ ": 状态=" ++ parsed.status ++
    ", 结果=" ++ parsed.message.take 300
  (if parsed.suggestions ≠ "" then line ++ ", 建议=" ++ parsed.suggestions else line) ++ "\n"

/-- The structured digest of all tool log entries (`structured_results` in
ManusAgent.execute). -/
def structuredResults (env : Env) (logs : List LogEntry) : String :=
  "工具执行结果（结构化分析）：\n" ++
    String.join (logs.enum.map (fun p => outcomeLine env (p.1 + 1) p.2))

/-- `"\n".join(llm_thoughts)`. -/
def joinThoughts (ts : List String) : String :=
  String.intercalate "\n" ts

/-- The state ManusAgent.execute starts from. -/
def initExecSt : ExecSt :=
  { toolLogs := [], llmThoughts := [], plans := [], finalAnswer := "", finalThoughts := "",
    extracted := [], tried := [], failed := [], tick := 0, roundsRun := 0 }

/-- The loop of ManusAgent.execute run to completion (`max_rounds = 3`). -/
def manusLoopFinal (env : Env) (u : String) : ExecSt :=
  execLoop env u 3 0 initExecSt

/-- The result record of ManusAgent.execute. -/
structure ExecResult where
  finalAnswer : String
  plan : List PlanStep
  toolLogs : List LogEntry
  llmThoughts : String
  finalThoughts : String
  usedTools : Bool

/-- ManusAgent.execute: run the loop, then, when no (non-empty) final
answer was produced, run the final-answer synthesis; when the synthesis
response does not parse, fall back to the raw structured digest. -/
def execute (env : Env) (u : String) : ExecResult :=
  let st := manusLoopFinal env u
  let fa :=
    if st.finalAnswer = "" then
      match env.synth st.toolLogs with
      | some p => p
      | none => (structuredResults env st.toolLogs, joinThoughts st.llmThoughts)
    else (st.finalAnswer, st.finalThoughts)
  { finalAnswer := fa.1, plan := st.plans, toolLogs := st.toolLogs,
    llmThoughts := joinThoughts st.llmThoughts, finalThoughts := fa.2,
    usedTools := decide (0 < st.toolLogs.length) }

/-! ### ExpertAgent.execute_async (core/expert_agent.py) -/

/-- Environment of one ExpertAgent.execute_async run.  `call` models
`_execute_tool_safely`, which always returns a string (timeouts and
exceptions are converted to `[Timeout]`/`[Exception]` strings inside it);
`synth` is the parsed summary response over the valid logs (`none` = the
response did not parse). -/
structure EEnv where
  planResp : Nat → PlanResp
  hasTool : String → Bool
  call : Nat → String → String → String
  synth : List LogEntry → Option (String × String)

/-- Keywords that switch ExpertAgent.execute_async into the
complex-web-operation mode. -/
def complexWebKeywords : List String :=
  ["截图", "截屏", "点击", "交互", "填写", "输入", "滚动", "多步骤"]

/-- `needs_complex_web_operation`. -/
def needsComplexWebOperation (userInput : String) : Bool :=
  containsAny userInput complexWebKeywords

/-- The duplicate-call check of ExpertAgent.execute_async: scan the global
`tool_logs` (the current round's earlier entries are not yet in it) for an
entry with the same tool and input; for a `web_browser` call whose input
holds `action=`, only a repeated `action=go_to_url` counts as a
duplicate. -/
def alreadyExecuted (logs : List LogEntry) (toolName input : String) : Bool :=
  logs.any (fun e =>
    e.tool == toolName && e.input == input &&
      (if toolName == "web_browser" && containsSubstr input "action=" then
        containsSubstr input "action=go_to_url" && containsSubstr e.input "action=go_to_url"
      else true))

/-- Round-local state of ExpertAgent.execute_async. -/
structure ERoundSt where
  curLogs : List LogEntry
  tick : Nat

/-- One step of the dispatch loop of ExpertAgent.execute_async: skip a
duplicate, log a missing tool, otherwise call the tool; every entry of the
round gets the step index `len(tool_logs) + 1` with `tool_logs` the global
log at the start of the round. -/
def expertStep (env : EEnv) (gl : List LogEntry) (st : ERoundSt) (s : PlanStep) : ERoundSt :=
  let base := gl.length
  if alreadyExecuted gl s.tool s.input then
    { st with curLogs := st.curLogs ++ [⟨base + 1, s.tool, s.input, "[跳过] 已执行过相同的工具调用"⟩] }
  else if ! env.hasTool s.tool then
    { st with
      curLogs := st.curLogs ++
        [⟨base + 1, s.tool, s.input, "[Error] tool '" ++ s.tool ++ "' not found"⟩] }
  else
    let out := env.call st.tick s.tool s.input
    { st with
      tick := st.tick + 1,
      curLogs := st.curLogs ++ ([⟨base + 1, s.tool, s.input, out⟩] : List LogEntry) }

/-- Per-query state of ExpertAgent.execute_async. -/
structure EExecSt where
  toolLogs : List LogEntry
  llmThoughts : List String
  plans : List PlanStep
  finalAnswer : String
  finalThoughts : String
  tick : Nat
  roundsRun : Nat

/-- The `while round_num < max_rounds` loop of ExpertAgent.execute_async:
plan, stop on a direct answer, record the plan only in round 1, dispatch,
then the log-count termination checks (`len(tool_logs) >= 4 and
round_num >= 3` in complex-web mode, `len(tool_logs) >= 3` otherwise). -/
def expertLoop (env : EEnv) (userInput : String) : Nat → Nat → EExecSt → EExecSt
  | 0, _, st => st
  | fuel + 1, r, st =>
      let rn := r + 1
      let p := env.planResp rn
      let st1 :=
        { st with
          llmThoughts := st.llmThoughts ++ [thoughtLine rn p.thoughts],
          roundsRun := rn }
      if ! p.needTool then
        { st1 with
          finalAnswer := p.finalAnswer,
          finalThoughts := "基于我的专业能力，我直接回答了这个问题" }
      else
        let st2 := { st1 with plans := if rn = 1 then st1.plans ++ p.plan else st1.plans }
        let rs := p.plan.foldl (expertStep env st2.toolLogs) ⟨[], st2.tick⟩
        let st3 := { st2 with toolLogs := st2.toolLogs ++ rs.curLogs, tick := rs.tick }
        if needsComplexWebOperation userInput then
          if 4 ≤ st3.toolLogs.length && 3 ≤ rn then st3
          else expertLoop env userInput fuel rn st3
        else
          if 3 ≤ st3.toolLogs.length then st3
          else expertLoop env userInput fuel rn st3

/-- The log entries kept for the expert summary: those whose output holds
neither `[跳过]` nor `[Error]`. -/
def validLogs (logs : List LogEntry) : List LogEntry :=
  logs.filter (fun e =>
    ! containsSubstr e.output "[跳过]" && ! containsSubstr e.output "[Error]")

/-- `f"Step {l['step']} - {l['tool']}({l['input']}):\n{l['output']}"`. -/
def expertLogLine (e : LogEntry) : String :=
  "Step " ++ toString e.step ++ " - " ++ e.tool ++ "(" ++ e.input ++ "):\n" ++ e.output

/-- The `aggregate` digest the expert summary prompt is built from. -/
def expertAggregate (logs : List LogEntry) : String :=
  "工具执行结果：\n" ++ String.intercalate "\n\n" (logs.map expertLogLine)

/-- The state ExpertAgent.execute_async starts from. -/
def initEExecSt : EExecSt :=
  { toolLogs := [], llmThoughts := [], plans := [], finalAnswer := "", finalThoughts := "",
    tick := 0, roundsRun := 0 }

/-- The loop of ExpertAgent.execute_async run to completion
(`max_rounds = 5`). -/
def expertLoopFinal (env : EEnv) (u : String) : EExecSt :=
  expertLoop env u 5 0 initEExecSt

/-- The result record of ExpertAgent.execute_async. -/
structure EResult where
  finalAnswer : String
  finalThoughts : String
  llmThoughts : List String
  plan : List PlanStep
  toolLogs : List LogEntry

/-- ExpertAgent.execute_async: run the loop; when it produced no (non-empty)
final answer, summarize the valid logs — a fixed message when none remain, a
parsed summary when it parses, and the raw aggregate digest otherwise. -/
def executeAsync (env : EEnv) (u : String) : EResult :=
  let st := expertLoopFinal env u
  let fa :=
    if st.finalAnswer = "" then
      let valid := validLogs st.toolLogs
      if valid.isEmpty then
        ("未能获取有效的文档内容，请检查文档ID是否正确或重新上传文档。",
          "工具执行过程中出现错误或重复调用")
      else
        match env.synth valid with
        | some p => p
        | none => (expertAggregate valid, "基于专业能力的执行结果")
    else (st.finalAnswer, st.finalThoughts)
  { finalAnswer := fa.1, finalThoughts := fa.2, llmThoughts := st.llmThoughts,
    plan := st.plans, toolLogs := st.toolLogs }

/-! ### MultiAgentOrchestrator (core/multi_agent.py) -/

/-- `negative_indicators` of `_evaluate_result_quality`. -/
def negativeIndicators : List String :=
  ["无法获取", "没有找到", "不知道", "不清楚", "抱歉", "错误"]

/-- `useful_indicators` of `_evaluate_result_quality`. -/
def usefulIndicators : List String :=
  ["是", "可以", "建议", "方法", "步骤", "结果"]

/-- MultiAgentOrchestrator._evaluate_result_quality (the `query` parameter
is present but unread in the source as well). -/
def evaluateResultQuality (answer _query : String) : Bool :=
  if answer = "" || (strTrim answer).length < 10 then false
  else if containsAny answer negativeIndicators then false
  else if containsAny answer usefulIndicators then true
  else 30 < (strTrim answer).length

/-- The per-expert performance counters `(success, total)`, keyed in
registration order (a Python dict preserves insertion order). -/
abbrev Perf := List (String × Nat × Nat)

/-- Dict lookup on the performance map. -/
def lookupPerf : Perf → String → Option (Nat × Nat)
  | [], _ => none
  | (n, c) :: rest, k => if n = k then some c else lookupPerf rest k

/-- The registered experts, in registration order
(`_initialize_experts`). -/
def expertNames : List String :=
  ["search_expert", "document_expert", "general_expert"]

/-- `{name: {"success": 0, "total": 0} for name in self.experts}`. -/
def initPerformance (experts : List String) : Perf :=
  experts.map (fun n => (n, (0, 0)))

/-- The score of `_get_best_performing_expert`: the success rate when the
expert has samples, a neutral 0.5 otherwise. -/
def perfScore (c : Nat × Nat) : ℚ :=
  if 0 < c.2 then (c.1 : ℚ) / (c.2 : ℚ) else 1 / 2

/-- MultiAgentOrchestrator._get_best_performing_expert: Python `max` keeps
the first element with the maximal key, so ties break by registration
order; `none` only on an empty profile list (where Python would raise). -/
def bestPerformingExpert (perf : Perf) : Option String :=
  match perf.map (fun p => (p.1, perfScore p.2)) with
  | [] => none
  | x :: xs => some (xs.foldl (fun acc y => if acc.2 < y.2 then y else acc) x).1

/-- MultiAgentOrchestrator.select_expert_with_performance: override the
primary choice when it has more than 5 recorded runs and a success rate
below 0.3; `none` models the KeyError Python would raise on an unknown
expert name (`select_expert_llm` only ever returns registered names). -/
def selectExpertWithPerformance (perf : Perf) (llmChoice : String) : Option String :=
  match lookupPerf perf llmChoice with
  | none => none
  | some c =>
      if 5 < c.2 then
        if (c.1 : ℚ) / (c.2 : ℚ) < 3 / 10 then
          match bestPerformingExpert perf with
          | none => none
          | some best => some (if best ≠ llmChoice then best else llmChoice)
        else some llmChoice
      else some llmChoice

/-- MultiAgentOrchestrator.update_expert_performance: increment `total` and,
on success, `success` of the named expert; unknown names are ignored (the
`selection_history` append, write-only state no claim reads, is omitted). -/
def updateExpertPerformance (perf : Perf) (name : String) (success : Bool) : Perf :=
  if (lookupPerf perf name).isSome then
    perf.map (fun p =>
      if p.1 = name then (p.1, (p.2.1 + (if success then 1 else 0), p.2.2 + 1)) else p)
  else perf

/-- Environment of MultiAgentOrchestrator.run after expert selection: the
final answer each expert produces on the query. -/
structure OrchEnv where
  expertAnswer : String → String

/-- The fields of the orchestrator result record that the fallback rule
touches. -/
structure OrchResult where
  finalAnswer : String
  expertName : String
  successEvaluation : Bool
  backupUsed : Bool
deriving DecidableEq

/-- MultiAgentOrchestrator.run from the point the selected expert has been
chosen (no timeout, no exception): evaluate the answer, update the selected
expert's counters, and when the verdict is negative and the expert is not
the search expert, run the search expert once as a backup, substituting its
result only when its own verdict is positive.  Returns the result record
and the performance map after the run — the backup run performs no
performance update in the source. -/
def orchestratorRun (env : OrchEnv) (perf : Perf) (query expertName : String) :
    OrchResult × Perf :=
  let answer := env.expertAnswer expertName
  let success := evaluateResultQuality answer query
  let perf1 := updateExpertPerformance perf expertName success
  let res : OrchResult :=
    { finalAnswer := answer, expertName := expertName,
      successEvaluation := success, backupUsed := false }
  if success = false ∧ expertName ≠ "search_expert" then
    let backupAnswer := env.expertAnswer "search_expert"
    let backupSuccess := evaluateResultQuality backupAnswer query
    if backupSuccess then
      ({ finalAnswer := backupAnswer, expertName := "search_expert",
         successEvaluation := backupSuccess, backupUsed := true }, perf1)
    else (res, perf1)
  else (res, perf1)

/-! ### Concrete environments used as test inputs -/

/-- A parsed tool result with `status = "success"`. -/
def okJson : Jobj := ⟨some "success", some "done", none⟩

/-- A parsed tool result with `status = "failed"`. -/
def failedJson : Jobj := ⟨some "failed", some "nope", none⟩

/-- A registry stocked only with always-failing stub tools: every call
raises, every planning round requests one generic tool, and the synthesis
response never parses. -/
def envFail : Env :=
  { jsonParse := fun _ => none,
    extractUrls := fun _ => [],
    hasTool := fun _ => true,
    call := fun _ _ _ => Except.error "fail",
    planResp := fun _ => ⟨true, [⟨"stub_tool", "x"⟩], "", "t"⟩,
    synth := fun _ => none }

/-- Two registered generic tools that both succeed, planned in one round. -/
def envSteps : Env :=
  { jsonParse := fun s => if s = "ok" then some okJson else none,
    extractUrls := fun _ => [],
    hasTool := fun _ => true,
    call := fun _ _ _ => Except.ok "ok",
    planResp := fun _ => ⟨true, [⟨"toolA", "x"⟩, ⟨"toolB", "y"⟩], "", "t"⟩,
    synth := fun _ => some ("ans", "th") }

/-- Every round plans one step whose tool name resolves to nothing. -/
def envUnresolved : Env :=
  { jsonParse := fun _ => none,
    extractUrls := fun _ => [],
    hasTool := fun _ => false,
    call := fun _ _ _ => Except.error "e",
    planResp := fun _ => ⟨true, [⟨"ghost_tool", "x"⟩], "", "t"⟩,
    synth := fun _ => none }

/-- Every round plans `need_tool = true` with an empty step list. -/
def envEmptyPlan : Env :=
  { jsonParse := fun _ => none,
    extractUrls := fun _ => [],
    hasTool := fun _ => true,
    call := fun _ _ _ => Except.error "e",
    planResp := fun _ => ⟨true, [], "", "t"⟩,
    synth := fun _ => none }

/-- An image-like URL (extension `.jpg`). -/
def imgUrl : String := "http://img.test/a.jpg"

/-- A search that extracts one image URL, a download that fails on it in
round 1, and a second download request in round 2 whose substitution
screenshot re-targets the same (already tried) URL. -/
def envDedup : Env :=
  { jsonParse := fun s =>
      if s = "s_ok" then some okJson else if s = "bad" then some failedJson else none,
    extractUrls := fun s => if s = "s_ok" then [imgUrl] else [],
    hasTool := fun _ => true,
    call := fun _ tool _ => if tool = "web_search" then Except.ok "s_ok" else Except.ok "bad",
    planResp := fun n =>
      if n = 1 then ⟨true, [⟨"web_search", "q1"⟩, ⟨"web_download", "dl"⟩, ⟨"aux_tool", "z"⟩], "", "t"⟩
      else if n = 2 then ⟨true, [⟨"web_download", "dl"⟩], "", "t"⟩
      else ⟨false, [], "stop", "t"⟩,
    synth := fun _ => none }

/-- An environment whose JSON oracle parses `"s_ok"` as a success. -/
def envSearchOnly : Env :=
  { jsonParse := fun s => if s = "s_ok" then some okJson else none,
    extractUrls := fun _ => [],
    hasTool := fun _ => true,
    call := fun _ _ _ => Except.ok "s_ok",
    planResp := fun _ => ⟨false, [], "a", "t"⟩,
    synth := fun _ => none }

/-- A trace holding one successful `web_search` call and nothing else. -/
def searchOnlyLogs : List LogEntry := [⟨1, "web_search", "q", "s_ok"⟩]

/-- An expert environment whose only tool always returns an exception
string and whose summary response never parses. -/
def expertEnvFail : EEnv :=
  { planResp := fun _ => ⟨true, [⟨"stub_tool", "x"⟩], "", "t"⟩,
    hasTool := fun _ => true,
    call := fun _ _ _ => "[Exception] fail",
    synth := fun _ => none }

/-- A selected expert whose answer fails the quality heuristic (it holds the
negative indicator 抱歉) and a search expert whose answer passes it. -/
def orchEnvBackup : OrchEnv :=
  { expertAnswer := fun name =>
      if name = "search_expert" then "这个问题可以这样解决：方法与步骤已经整理见下文详细说明"
      else "抱歉，没有找到相关信息" }

/-- The performance profile of P5: the first expert seeded to 0 of 6, the
second to 5 of 6, the third untouched. -/
def perfSeeded : Perf :=
  [("search_expert", (0, 6)), ("document_expert", (5, 6)), ("general_expert", (0, 0))]

/-- A raw tool result-string of 400 characters that parses as nothing. -/
def longRaw : String := String.mk (List.replicate 400 'x')

/-- The performance-counter invariant: success never exceeds total. -/
def PerfInv (perf : Perf) : Prop := ∀ p ∈ perf, p.2.1 ≤ p.2.2

/-! ### Helper lemmas -/

theorem ne_empty_of_length_pos (s : String) (h : 0 < s.length) : s ≠ "" := by
  intro hc
  rw [hc] at h
  simp at h

theorem append_ne_empty_left (s t : String) (h : 0 < s.length) : s ++ t ≠ "" := by
  apply ne_empty_of_length_pos
  rw [String.length_append]
  omega

theorem structuredResults_ne_empty (env : Env) (logs : List LogEntry) :
    structuredResults env logs ≠ "" := by
  unfold structuredResults
  exact append_ne_empty_left _ _ (by decide)

theorem expertAggregate_ne_empty (logs : List LogEntry) :
    expertAggregate logs ≠ "" := by
  unfold expertAggregate
  exact append_ne_empty_left _ _ (by decide)

/-! ### C9 — result-interpreter fallback -/

/-- C9 (amended): a raw result-string that does not parse, or parses
without a "status" field, yields the synthetic outcome with status
"unknown" and the raw string itself — untruncated — as the message. -/
theorem claim_C9 : ∀ (jp : String → Option Jobj) (raw : String),
    (jp raw = none → parseToolResult jp raw = ⟨"unknown", raw, ""⟩) ∧
    (∀ j, jp raw = some j → j.status? = none →
      parseToolResult jp raw = ⟨"unknown", raw, ""⟩) := by
  intro jp raw
  constructor
  · intro h
    unfold parseToolResult
    rw [h]
  · intro j hj hs
    unfold parseToolResult
    rw [hj]
    dsimp only
    rw [hs]

/-- C9 witness: the fallback outcome at a concrete unparseable string. -/
theorem claim_C9_witness :
    parseToolResult (fun _ => none) "boom" = ⟨"unknown", "boom", ""⟩ :=
  (claim_C9 (fun _ => none) "boom").1 rfl

/-- C9 counterexample: on a 400-character unparseable raw string the
interpreter keeps the full raw string as the message — it is not the
truncation to roughly 300 characters the claim states. -/
theorem claim_C9_counterexample :
    (parseToolResult (fun _ => none) longRaw).status = "unknown" ∧
    (parseToolResult (fun _ => none) longRaw).message = longRaw ∧
    longRaw.length = 400 ∧
    (parseToolResult (fun _ => none) longRaw).message ≠ strTake longRaw 300 := by
  have h400 : longRaw.length = 400 := by
    show (List.replicate 400 'x').length = 400
    rw [List.length_replicate]
  refine ⟨rfl, rfl, h400, ?_⟩
  intro hc
  have hm : (parseToolResult (fun _ => none) longRaw).message = longRaw := rfl
  rw [hm] at hc
  have hlen := congrArg String.length hc
  have h300 : (strTake longRaw 300).length = 300 := by
    show (List.take 300 (List.replicate 400 'x')).length = 300
    rw [List.length_take, List.length_replicate]
    omega
  rw [h400, h300] at hlen
  omega

/-! ### C6 — task-completion heuristic -/

/-- C6 (amended): the early-termination heuristic reports completion
exactly when at least one logged tool call parsed as successful; the two
keyword blocks are redundant sufficient conditions, and in particular a
successful search alone does complete an imagery request. -/
theorem claim_C6 : ∀ (env : Env) (u : String) (logs : List LogEntry),
    isTaskCompleted env u logs = logs.any (logOk env) := by
  intro env u logs
  unfold isTaskCompleted
  dsimp only
  split
  · rename_i h
    rw [Bool.and_eq_true, List.any_eq_true] at h
    obtain ⟨-, e, he, hp⟩ := h
    rw [Bool.and_eq_true] at hp
    symm
    rw [List.any_eq_true]
    exact ⟨e, he, hp.2⟩
  · split
    · rename_i h
      rw [Bool.and_eq_true, List.any_eq_true] at h
      obtain ⟨-, e, he, hp⟩ := h
      rw [Bool.and_eq_true] at hp
      symm
      rw [List.any_eq_true]
      exact ⟨e, he, hp.2⟩
    · rfl

/-- C6 counterexample: "image of cats" references imagery, the only log
entry is a successful `web_search`, yet the heuristic reports completion —
refuting that an imagery request completes only on a successful
download/screenshot. -/
theorem claim_C6_counterexample :
    isTaskCompleted envSearchOnly "image of cats" searchOnlyLogs = true ∧
    containsAny (strToLower "image of cats") imageTaskKeywords = true ∧
    searchOnlyLogs.all (fun e => e.tool == "web_search") = true := by
  refine ⟨by decide, by decide, by decide⟩

/-! ### C7 — performance-driven override -/

/-- C7: when the primary-selected expert has more than 5 recorded runs and
a success rate below 0.3, `select_expert_with_performance` returns the
best-performing expert (zero-sample experts score a neutral 0.5 and Python
`max` keeps the first maximal element, both inside
`bestPerformingExpert`). -/
theorem claim_C7 : ∀ (perf : Perf) (llmChoice best : String) (s t : Nat),
    lookupPerf perf llmChoice = some (s, t) →
    5 < t →
    (s : ℚ) / (t : ℚ) < 3 / 10 →
    bestPerformingExpert perf = some best →
    selectExpertWithPerformance perf llmChoice = some best := by
  intro perf c b s t hl ht hr hb
  unfold selectExpertWithPerformance
  rw [hl]
  dsimp only
  rw [if_pos ht, if_pos hr, hb]
  dsimp only
  split
  · rfl
  · rename_i h
    rw [not_not.mp (fun hne => h hne)]

theorem bestPerformingExpert_seeded :
    bestPerformingExpert perfSeeded = some "document_expert" := by
  norm_num [bestPerformingExpert, perfSeeded, perfScore]

/-- C7 witness: with the first expert seeded to 0 of 6 and the second to
5 of 6, a primary classification of the first yields the second. -/
theorem claim_C7_witness :
    selectExpertWithPerformance perfSeeded "search_expert" = some "document_expert" :=
  claim_C7 perfSeeded "search_expert" "document_expert" 0 6 rfl (by decide)
    (by norm_num) bestPerformingExpert_seeded

/-! ### C8 — orchestrator fallback rule -/

/-- C8 (amended): when the selected expert's quality verdict is false and
it is not the search expert, the search expert is re-run once; a passing
fallback answer is substituted with `backup_used = true`, a failing one
keeps the original result; in both cases the performance map records only
the originally selected expert's (negative) verdict — the fallback run
performs no performance update. -/
theorem claim_C8 :
    (∀ (env : OrchEnv) (perf : Perf) (q name : String),
      evaluateResultQuality (env.expertAnswer name) q = false →
      name ≠ "search_expert" →
      evaluateResultQuality (env.expertAnswer "search_expert") q = true →
      (orchestratorRun env perf q name).1 =
        { finalAnswer := env.expertAnswer "search_expert", expertName := "search_expert",
          successEvaluation := true, backupUsed := true } ∧
      (orchestratorRun env perf q name).2 = updateExpertPerformance perf name false) ∧
    (∀ (env : OrchEnv) (perf : Perf) (q name : String),
      evaluateResultQuality (env.expertAnswer name) q = false →
      name ≠ "search_expert" →
      evaluateResultQuality (env.expertAnswer "search_expert") q = false →
      (orchestratorRun env perf q name).1 =
        { finalAnswer := env.expertAnswer name, expertName := name,
          successEvaluation := false, backupUsed := false } ∧
      (orchestratorRun env perf q name).2 = updateExpertPerformance perf name false) := by
  constructor
  · intro env perf q name h1 h2 h3
    simp only [orchestratorRun]
    rw [if_pos (And.intro h1 h2), h3, if_pos rfl, h1]
    exact ⟨rfl, rfl⟩
  · intro env perf q name h1 h2 h3
    simp only [orchestratorRun]
    rw [if_pos (And.intro h1 h2), h3, if_neg Bool.false_ne_true, h1]
    exact ⟨rfl, rfl⟩

/-- C8 witness: the fallback substitution at a concrete pair of answers. -/
theorem claim_C8_witness :
    (orchestratorRun orchEnvBackup (initPerformance expertNames) "q" "document_expert").1 =
      { finalAnswer := orchEnvBackup.expertAnswer "search_expert",
        expertName := "search_expert", successEvaluation := true, backupUsed := true } ∧
    (orchestratorRun orchEnvBackup (initPerformance expertNames) "q" "document_expert").2 =
      updateExpertPerformance (initPerformance expertNames) "document_expert" false :=
  claim_C8.1 orchEnvBackup (initPerformance expertNames) "q" "document_expert"
    (by decide) (by decide) (by decide)

/-- C8 counterexample: the fallback runs, passes quality and is
substituted (`backup_used = true`), yet the search expert's counters stay
at `(0, 0)` — its quality verdict did not update the PerformanceTracker,
refuting the last conjunct of the claim. -/
theorem claim_C8_counterexample :
    (orchestratorRun orchEnvBackup (initPerformance expertNames) "q" "document_expert").1.backupUsed
        = true ∧
    (orchestratorRun orchEnvBackup (initPerformance expertNames) "q" "document_expert").1.successEvaluation
        = true ∧
    lookupPerf (orchestratorRun orchEnvBackup (initPerformance expertNames) "q"
        "document_expert").2 "search_expert" = some (0, 0) ∧
    lookupPerf (orchestratorRun orchEnvBackup (initPerformance expertNames) "q"
        "document_expert").2 "document_expert" = some (0, 1) := by
  refine ⟨by decide, by decide, by decide, by decide⟩

/-! ### C10 — performance-counter invariant -/

theorem perfInv_update (perf : Perf) (name : String) (b : Bool) (h : PerfInv perf) :
    PerfInv (updateExpertPerformance perf name b) := by
  intro p hp
  unfold updateExpertPerformance at hp
  split at hp
  · rw [List.mem_map] at hp
    obtain ⟨q, hq, rfl⟩ := hp
    have hqi := h q hq
    split
    · dsimp only
      split <;> omega
    · exact hqi
  · exact h p hp

theorem lookupPerf_map_update (name : String) (b : Bool) :
    ∀ (perf : Perf) (s t : Nat), lookupPerf perf name = some (s, t) →
      lookupPerf (perf.map (fun p =>
          if p.1 = name then (p.1, (p.2.1 + (if b then 1 else 0), p.2.2 + 1)) else p)) name =
        some (s + (if b then 1 else 0), t + 1) := by
  intro perf
  induction perf with
  | nil => intro s t h; simp [lookupPerf] at h
  | cons hd tl ih =>
      intro s t h
      obtain ⟨n, c⟩ := hd
      rw [lookupPerf] at h
      by_cases hn : n = name
      · rw [if_pos hn] at h
        injection h with h
        subst h
        subst hn
        simp only [List.map_cons, if_true]
        rw [lookupPerf, if_pos rfl]
      · rw [if_neg hn] at h
        simp only [List.map_cons]
        rw [if_neg hn]
        rw [lookupPerf, if_neg hn]
        exact ih s t h

theorem perfInv_foldl (updates : List (String × Bool)) :
    ∀ perf : Perf, PerfInv perf →
      PerfInv (updates.foldl (fun p nb => updateExpertPerformance p nb.1 nb.2) perf) := by
  induction updates with
  | nil => intro perf h; exact h
  | cons hd tl ih =>
      intro perf h
      exact ih _ (perfInv_update perf hd.1 hd.2 h)

/-- C10: every expert starts at `(0, 0)`, every update increments `total`
by exactly one and `success` by one exactly on a successful run, the
invariant `success ≤ total` holds initially, is preserved by every update,
and therefore holds in every reachable orchestrator state. -/
theorem claim_C10 :
    (∀ experts : List String, PerfInv (initPerformance experts)) ∧
    (∀ (perf : Perf) (name : String) (b : Bool),
      PerfInv perf → PerfInv (updateExpertPerformance perf name b)) ∧
    (∀ updates : List (String × Bool),
      PerfInv (updates.foldl (fun p nb => updateExpertPerformance p nb.1 nb.2)
        (initPerformance expertNames))) ∧
    (∀ (perf : Perf) (name : String) (b : Bool) (s t : Nat),
      lookupPerf perf name = some (s, t) →
      lookupPerf (updateExpertPerformance perf name b) name =
        some (s + (if b then 1 else 0), t + 1)) := by
  refine ⟨?_, perfInv_update, ?_, ?_⟩
  · intro experts p hp
    unfold initPerformance at hp
    rw [List.mem_map] at hp
    obtain ⟨n, -, rfl⟩ := hp
    exact Nat.le_refl 0
  · intro updates
    apply perfInv_foldl
    intro p hp
    unfold initPerformance at hp
    rw [List.mem_map] at hp
    obtain ⟨n, -, rfl⟩ := hp
    exact Nat.le_refl 0
  · intro perf name b s t h
    unfold updateExpertPerformance
    rw [if_pos (by rw [h]; rfl)]
    exact lookupPerf_map_update name b perf s t h

/-- C10 witness: the invariant and the counter increment at a concrete
update of the initial profile. -/
theorem claim_C10_witness :
    PerfInv (updateExpertPerformance (initPerformance expertNames) "search_expert" true) ∧
    lookupPerf (updateExpertPerformance (initPerformance expertNames) "search_expert" true)
        "search_expert" = some (1, 1) := by
  constructor
  · exact claim_C10.2.1 (initPerformance expertNames) "search_expert" true
      (claim_C10.1 expertNames)
  · have h := claim_C10.2.2.2 (initPerformance expertNames) "search_expert" true 0 0
      (by decide)
    simpa using h

/-! ### Loop lemmas -/

theorem afterRound_roundsRun (st : ExecSt) (r : RoundSt) :
    (afterRound st r).roundsRun = st.roundsRun := rfl

theorem execLoop_roundsRun_le (env : Env) (u : String) :
    ∀ (fuel r : Nat) (st : ExecSt),
      (execLoop env u fuel r st).roundsRun ≤ max st.roundsRun (r + fuel) := by
  intro fuel
  induction fuel with
  | zero => intro r st; exact le_max_left _ _
  | succ fuel ih =>
      intro r st
      rw [execLoop]
      dsimp only
      split
      · dsimp only; omega
      · split
        · rw [afterRound_roundsRun]; dsimp only; omega
        · split
          · rw [afterRound_roundsRun]; dsimp only; omega
          · refine le_trans (ih (r + 1) _) ?_
            rw [afterRound_roundsRun]
            dsimp only
            omega

theorem execLoop_roundsRun_ge (env : Env) (u : String) :
    ∀ (fuel r : Nat) (st : ExecSt),
      r + 1 ≤ (execLoop env u (fuel + 1) r st).roundsRun := by
  intro fuel
  induction fuel with
  | zero =>
      intro r st
      rw [execLoop]
      dsimp only
      split
      · dsimp only; omega
      · split
        · rw [afterRound_roundsRun]
        · split
          · rw [afterRound_roundsRun]
          · rw [execLoop, afterRound_roundsRun]
  | succ fuel ih =>
      intro r st
      rw [execLoop]
      dsimp only
      split
      · dsimp only; omega
      · split
        · rw [afterRound_roundsRun]
        · split
          · rw [afterRound_roundsRun]
          · exact le_trans (by omega) (ih (r + 1) _)

theorem expertLoop_roundsRun_le (env : EEnv) (u : String) :
    ∀ (fuel r : Nat) (st : EExecSt),
      (expertLoop env u fuel r st).roundsRun ≤ max st.roundsRun (r + fuel) := by
  intro fuel
  induction fuel with
  | zero => intro r st; exact le_max_left _ _
  | succ fuel ih =>
      intro r st
      rw [expertLoop]
      dsimp only
      split
      · dsimp only; omega
      · split
        · split
          · dsimp only; omega
          · refine le_trans (ih (r + 1) _) ?_
            dsimp only
            omega
        · split
          · dsimp only; omega
          · refine le_trans (ih (r + 1) _) ?_
            dsimp only
            omega

/-! ### C2 — round-budget termination -/

/-- C2: the execution loop of the simple agent runs at most 3 rounds and
the expert loop at most 5, for every environment (in particular when every
planning call requests tools and every tool invocation fails); with the
always-failing stub registry the simple agent runs exactly 3 rounds and
stops. -/
theorem claim_C2 :
    (∀ (env : Env) (u : String), (manusLoopFinal env u).roundsRun ≤ 3) ∧
    (∀ (env : EEnv) (u : String), (expertLoopFinal env u).roundsRun ≤ 5) ∧
    (manusLoopFinal envFail "q").roundsRun = 3 := by
  refine ⟨?_, ?_, by decide⟩
  · intro env u
    have h := execLoop_roundsRun_le env u 3 0 initExecSt
    have h0 : max initExecSt.roundsRun (0 + 3) = 3 := by decide
    rw [h0] at h
    exact h
  · intro env u
    have h := expertLoop_roundsRun_le env u 5 0 initEExecSt
    have h0 : max initEExecSt.roundsRun (0 + 5) = 5 := by decide
    rw [h0] at h
    exact h

/-! ### C3 — no-tool termination -/

theorem runRound_nil (env : Env) (base : Nat) (st : RoundSt) :
    runRound env base [] st = st := rfl

theorem runStep_notfound (env : Env) (base : Nat) (st : RoundSt) (s : PlanStep)
    (h : env.hasTool s.tool = false) :
    (runStep env base st s).toolsExecuted = st.toolsExecuted ++ [s.tool] ∧
    (runStep env base st s).roundSuccess = false ∧
    (runStep env base st s).tried = st.tried := by
  unfold runStep
  rw [h]
  exact ⟨rfl, rfl, rfl⟩

theorem runRound_unresolved (env : Env) (base : Nat) :
    ∀ (steps : List PlanStep) (st : RoundSt),
      (∀ s ∈ steps, env.hasTool s.tool = false) →
      (runRound env base steps st).toolsExecuted = st.toolsExecuted ++ steps.map PlanStep.tool ∧
      (runRound env base steps st).roundSuccess =
        (if steps.isEmpty then st.roundSuccess else false) := by
  intro steps
  induction steps with
  | nil => intro st h; simp [runRound]
  | cons s rest ih =>
      intro st h
      have hs := h s (List.mem_cons_self s rest)
      have hrest : ∀ x ∈ rest, env.hasTool x.tool = false :=
        fun x hx => h x (List.mem_cons_of_mem s hx)
      have hstep := runStep_notfound env base st s hs
      have hr := ih (runStep env base st s) hrest
      rw [runRound] at hr ⊢
      rw [List.foldl_cons]
      constructor
      · rw [hr.1, hstep.1]
        simp
      · rw [hr.2, hstep.2.1]
        rw [List.isEmpty_cons]
        split <;> rfl

/-- C3 (amended): when a round's plan step list is empty the loop does
terminate at that round; but when the plan is non-empty and every tool name
fails to resolve, the round is merely marked failed and the loop continues
to the next round — it does not terminate there. -/
theorem claim_C3 :
    (∀ (env : Env) (u : String) (fuel r : Nat) (st : ExecSt),
      (env.planResp (r + 1)).needTool = true →
      (env.planResp (r + 1)).plan = [] →
      (execLoop env u (fuel + 1) r st).roundsRun = r + 1) ∧
    (∀ (env : Env) (u : String) (fuel r : Nat) (st : ExecSt),
      (env.planResp (r + 1)).needTool = true →
      (env.planResp (r + 1)).plan ≠ [] →
      (∀ s ∈ (env.planResp (r + 1)).plan, env.hasTool s.tool = false) →
      r + 2 ≤ (execLoop env u (fuel + 2) r st).roundsRun) := by
  constructor
  · intro env u fuel r st h1 h2
    rw [execLoop]
    dsimp only
    rw [h1, h2]
    simp only [Bool.not_true]
    rw [if_neg Bool.false_ne_true]
    rw [runRound_nil]
    dsimp only [roundInit]
    rw [if_pos List.isEmpty_nil]
    rw [afterRound_roundsRun]
  · intro env u fuel r st h1 h2 h3
    rw [execLoop]
    dsimp only
    rw [h1]
    simp only [Bool.not_true]
    rw [if_neg Bool.false_ne_true]
    have hrr := runRound_unresolved env
      (({ st with
          llmThoughts := st.llmThoughts ++ [thoughtLine (r + 1) (env.planResp (r + 1)).thoughts],
          roundsRun := r + 1,
          plans := st.plans ++ (env.planResp (r + 1)).plan } : ExecSt).toolLogs.length)
      (env.planResp (r + 1)).plan
      (roundInit { st with
          llmThoughts := st.llmThoughts ++ [thoughtLine (r + 1) (env.planResp (r + 1)).thoughts],
          roundsRun := r + 1,
          plans := st.plans ++ (env.planResp (r + 1)).plan })
      h3
    rw [if_neg ?_, if_neg ?_]
    · exact execLoop_roundsRun_ge env u fuel (r + 1) _
    · rw [Bool.and_eq_true]
      intro hcontra
      rw [hrr.2] at hcontra
      obtain ⟨hfalse, -⟩ := hcontra
      rw [if_neg ?_] at hfalse
      · exact Bool.false_ne_true hfalse
      · rw [List.isEmpty_iff]
        exact h2
    · intro hcontra
      rw [hrr.1] at hcontra
      rw [List.isEmpty_iff] at hcontra
      have := List.append_eq_nil.mp hcontra
      exact h2 (List.map_eq_nil_iff.mp this.2)

/-- C3 counterexample: every round plans one step whose tool name resolves
to nothing — the round yields zero dispatchable tools — yet the loop runs
all 3 rounds instead of terminating at round 1. -/
theorem claim_C3_counterexample :
    (envUnresolved.planResp 1).plan ≠ [] ∧
    (∀ s ∈ (envUnresolved.planResp 1).plan, envUnresolved.hasTool s.tool = false) ∧
    (manusLoopFinal envUnresolved "q").roundsRun = 3 := by
  refine ⟨by decide, by decide, by decide⟩

/-- C3 witness: the empty-plan round terminates the loop at once, and the
all-unresolved round does not. -/
theorem claim_C3_witness :
    (execLoop envEmptyPlan "q" 3 0 initExecSt).roundsRun = 0 + 1 ∧
    0 + 2 ≤ (execLoop envUnresolved "q" 3 0 initExecSt).roundsRun :=
  ⟨claim_C3.1 envEmptyPlan "q" 2 0 initExecSt rfl rfl,
    claim_C3.2 envUnresolved "q" 1 0 initExecSt rfl (by decide) (by decide)⟩

/-! ### C5 — tried-URL monotone growth -/

theorem insertSet_mem {l : List String} {y : String} (x : String) (h : y ∈ l) :
    y ∈ insertSet l x := by
  unfold insertSet
  split
  · exact h
  · exact List.mem_append_left _ h

theorem runSearchStep_tried (env : Env) (base : Nat) (st : RoundSt) (s : PlanStep) :
    (runSearchStep env base st s).tried = st.tried := by
  unfold runSearchStep
  split
  · rfl
  · dsimp only
    repeat' split
    all_goals rfl

theorem downloadAttempts_tried (env : Env) (base : Nat) :
    ∀ (ls : List String) (st : RoundSt) (b : Bool) (y : String),
      y ∈ st.tried → y ∈ (downloadAttempts env base ls st b).1.tried := by
  intro ls
  induction ls with
  | nil => intro st b y h; exact h
  | cons u rest ih =>
      intro st b y h
      rw [downloadAttempts]
      dsimp only
      split
      · split
        · exact insertSet_mem u h
        · exact ih _ _ y (insertSet_mem u h)
      · exact ih _ _ y (insertSet_mem u h)

theorem runDownloadStep_tried (env : Env) (base : Nat) (st : RoundSt) (s : PlanStep)
    (y : String) (h : y ∈ st.tried) : y ∈ (runDownloadStep env base st s).tried := by
  unfold runDownloadStep
  dsimp only
  repeat' split
  all_goals first
    | exact h
    | exact downloadAttempts_tried env base _ st false y h

theorem runScreenshotStep_tried (env : Env) (base : Nat) (st : RoundSt) (s : PlanStep)
    (y : String) (h : y ∈ st.tried) : y ∈ (runScreenshotStep env base st s).tried := by
  unfold runScreenshotStep
  dsimp only
  repeat' split
  all_goals first
    | exact h
    | exact insertSet_mem _ h

theorem runGenericStep_tried (env : Env) (base : Nat) (st : RoundSt) (s : PlanStep) :
    (runGenericStep env base st s).tried = st.tried := by
  unfold runGenericStep
  repeat' split
  all_goals rfl

theorem runStep_tried (env : Env) (base : Nat) (st : RoundSt) (s : PlanStep)
    (y : String) (h : y ∈ st.tried) : y ∈ (runStep env base st s).tried := by
  unfold runStep
  dsimp only
  repeat' split
  all_goals first
    | exact h
    | (rw [runSearchStep_tried]; exact h)
    | exact runDownloadStep_tried env base _ s y h
    | exact runScreenshotStep_tried env base _ s y h
    | (rw [runGenericStep_tried]; exact h)

theorem runRound_tried (env : Env) (base : Nat) :
    ∀ (steps : List PlanStep) (st : RoundSt) (y : String),
      y ∈ st.tried → y ∈ (runRound env base steps st).tried := by
  intro steps
  induction steps with
  | nil => intro st y h; exact h
  | cons s rest ih =>
      intro st y h
      rw [runRound, List.foldl_cons]
      exact ih (runStep env base st s) y (runStep_tried env base st s y h)

/-- C5 (amended): across one execution the `tried_urls` set only grows —
no element is ever removed, in any round, by any branch of the dispatch
loop (substitution attempts, however, may pass an already-tried URL again;
see the counterexample). -/
theorem claim_C5 :
    ∀ (env : Env) (u : String) (x : String) (fuel r : Nat) (st : ExecSt),
      x ∈ st.tried → x ∈ (execLoop env u fuel r st).tried := by
  intro env u x fuel
  induction fuel with
  | zero => intro r st h; exact h
  | succ fuel ih =>
      intro r st h
      rw [execLoop]
      dsimp only
      split
      · exact h
      · have hr : x ∈ (runRound env
            (({ st with
                llmThoughts := st.llmThoughts ++
                  [thoughtLine (r + 1) (env.planResp (r + 1)).thoughts],
                roundsRun := r + 1,
                plans := st.plans ++ (env.planResp (r + 1)).plan } : ExecSt).toolLogs.length)
            (env.planResp (r + 1)).plan
            (roundInit { st with
                llmThoughts := st.llmThoughts ++
                  [thoughtLine (r + 1) (env.planResp (r + 1)).thoughts],
                roundsRun := r + 1,
                plans := st.plans ++ (env.planResp (r + 1)).plan })).tried :=
          runRound_tried env _ _ _ x h
        split
        · exact hr
        · split
          · exact hr
          · exact ih (r + 1) _ hr

/-- C5 witness: a URL in the tried set at the start of the loop is still
there when the loop finishes. -/
theorem claim_C5_witness :
    "http://seen.test/u" ∈
      (execLoop envFail "q" 3 0
        { initExecSt with tried := ["http://seen.test/u"] }).tried :=
  claim_C5 envFail "q" "http://seen.test/u" 3 0
    { initExecSt with tried := ["http://seen.test/u"] } (by decide)

/-- C5 counterexample: in round 1 the download attempt tries the extracted
image URL and adds it to `tried_urls`; in round 2 the download branch has
no untried image URL left and falls back to the screenshot substitution on
`extracted_urls[0]` — the very URL already in `tried_urls` (the final log
entry) — refuting that no URL already in `tried_urls` is ever passed again
to a download/screenshot substitution attempt. -/
theorem claim_C5_counterexample :
    (manusLoopFinal envDedup "q").toolLogs.map (fun e => (e.step, e.tool, e.input)) =
      [(1, "web_search", "q1"),
       (1, "web_download", urlArg imgUrl),
       (1, "aux_tool", "z"),
       (4, "web_download", "dl"),
       (5, "web_screenshot", urlArg imgUrl)] ∧
    (manusLoopFinal envDedup "q").tried = [imgUrl] := by
  refine ⟨by decide, by decide⟩

/-! ### C4 — step-counter monotonicity -/

/-- C4: at the failing input — one round planning two resolvable,
successful tools — both log entries receive the step index
`len(tool_logs) + 1 = 1`, because `tool_logs` is only extended after the
round; the recorded step sequence `[1, 1]` is not strictly increasing. -/
theorem claim_C4 :
    (execute envSteps "q").toolLogs.map LogEntry.step = [1, 1] ∧
    ¬ List.Pairwise (fun a b : Nat => a < b)
        ((execute envSteps "q").toolLogs.map LogEntry.step) := by
  refine ⟨by decide, by decide⟩

/-! ### C1 — progress guarantee -/

/-- C1: when the loop produced no (non-empty) direct answer and the
final-answer synthesis response cannot be parsed, ManusAgent.execute
returns the raw structured digest of the accumulated tool logs, a
non-empty string; ExpertAgent.execute_async likewise returns a non-empty
final answer (the aggregate digest of the valid logs when any remain, a
fixed message otherwise). -/
theorem claim_C1 :
    (∀ (env : Env) (u : String),
      (manusLoopFinal env u).finalAnswer = "" →
      env.synth (manusLoopFinal env u).toolLogs = none →
      (execute env u).finalAnswer = structuredResults env (manusLoopFinal env u).toolLogs ∧
      (execute env u).finalAnswer ≠ "") ∧
    (∀ (env : EEnv) (u : String),
      (expertLoopFinal env u).finalAnswer = "" →
      env.synth (validLogs (expertLoopFinal env u).toolLogs) = none →
      (executeAsync env u).finalAnswer ≠ "" ∧
      ((validLogs (expertLoopFinal env u).toolLogs).isEmpty = false →
        (executeAsync env u).finalAnswer =
          expertAggregate (validLogs (expertLoopFinal env u).toolLogs))) := by
  constructor
  · intro env u h1 h2
    have he : (execute env u).finalAnswer =
        structuredResults env (manusLoopFinal env u).toolLogs := by
      unfold execute
      dsimp only
      rw [h1, if_pos rfl, h2]
    exact ⟨he, by rw [he]; exact structuredResults_ne_empty env _⟩
  · intro env u h1 h2
    by_cases hv : (validLogs (expertLoopFinal env u).toolLogs).isEmpty
    · have he : (executeAsync env u).finalAnswer =
          "未能获取有效的文档内容，请检查文档ID是否正确或重新上传文档。" := by
        unfold executeAsync
        dsimp only
        rw [h1, if_pos rfl, if_pos hv]
      constructor
      · rw [he]; decide
      · intro hc; rw [hv] at hc; exact absurd hc (by decide)
    · have he : (executeAsync env u).finalAnswer =
          expertAggregate (validLogs (expertLoopFinal env u).toolLogs) := by
        unfold executeAsync
        dsimp only
        rw [h1, if_pos rfl, if_neg hv, h2]
      constructor
      · rw [he]; exact expertAggregate_ne_empty _
      · intro _; exact he

/-- C1 witness: both loops under an always-failing registry still return
the digest as a non-empty final answer. -/
theorem claim_C1_witness :
    ((execute envFail "q").finalAnswer =
        structuredResults envFail (manusLoopFinal envFail "q").toolLogs ∧
      (execute envFail "q").finalAnswer ≠ "") ∧
    ((executeAsync expertEnvFail "q").finalAnswer ≠ "" ∧
      ((validLogs (expertLoopFinal expertEnvFail "q").toolLogs).isEmpty = false →
        (executeAsync expertEnvFail "q").finalAnswer =
          expertAggregate (validLogs (expertLoopFinal expertEnvFail "q").toolLogs))) :=
  ⟨claim_C1.1 envFail "q" (by decide) rfl,
    claim_C1.2 expertEnvFail "q" (by decide) rfl⟩

end OpenManus
